import Mathlib

/-!
Verification of the animated-wallpaper core of the `cosmic-bg` repository.

This file gives a shallow embedding, in Lean 4, of the pure logic of:

* `src/frame_queue.rs` — the bounded frame queue (`FrameQueue`), its
  DMA-BUF frame data constructors, and its statistics counters;
* `src/convert.rs` — the conversion advisor (`needs_conversion`,
  `convert_to_vp9`, `get_optimal_video_path`), with every external
  command outcome (ffprobe, ffmpeg, gst-launch, GPU detection, file
  sizes) abstracted into an explicit environment record;
* `src/animated/detection.rs` — the animated-AVIF header classifier
  `is_animated_avif`, over the file's byte contents;
* `src/animated/video_player.rs` — the frame-rate probe
  `detect_framerate`, with the GStreamer pipeline outcome abstracted
  into an explicit probe-outcome datatype (`f64` arithmetic on the
  one valid-framerate branch is modelled exactly over `ℚ`).

Machine integers (`u32`) are modelled as `Nat` with explicit wrap-around
(`% 2 ^ 32`) at the one multiplication where overflow is possible.
The queue is modelled sequentially: in the source, each operation holds
the ring-buffer mutex for its whole critical section, so the sequential
model covers every interleaving of complete operations; the `try_lock`
contention branches are the no-contention ones here.
-/

namespace CosmicBg

/-! ## DMA-BUF frame data (src/frame_queue.rs, lines 47-222) -/

/-- Per-plane data for DMA-BUF frames (`DmaBufPlaneData`).  The `fd` field
is the number of the duplicated file descriptor (the `Arc<OwnedFd>` of the
source, shared between planes of one buffer). -/
structure DmaBufPlaneData where
  fd : Nat
  offset : Nat
  stride : Nat
deriving Repr, DecidableEq

/-- DMA-BUF frame data (`DmaBufFrameData`). -/
structure DmaBufFrameData where
  fourcc : Nat
  modifier : Nat
  planes : List DmaBufPlaneData
  width : Nat
  height : Nat
deriving Repr, DecidableEq

/-- `2 ^ 32`, the modulus of Rust's `u32` arithmetic. -/
def U32 : Nat := 2 ^ 32

/-- `DmaBufFrameData::from_raw_fd_nv12` (src/frame_queue.rs, lines 124-169),
success path of the fd duplication.  `dup_fd` is the descriptor returned by
`nix::unistd::dup`.  The UV-plane offset is computed as
`y_stride * height` in `u32` arithmetic. -/
def DmaBufFrameData.from_raw_fd_nv12 (dup_fd fourcc modifier width height y_stride : Nat) :
    DmaBufFrameData :=
  let uv_offset := (y_stride * height) % U32
  { fourcc := fourcc
    modifier := modifier
    planes := [
      { fd := dup_fd, offset := 0, stride := y_stride },
      { fd := dup_fd, offset := uv_offset, stride := y_stride }]
    width := width
    height := height }

/-- `DmaBufFrameData::from_raw_fd_nv12_with_offsets`
(src/frame_queue.rs, lines 176-221), success path of the fd duplication:
both planes carry exactly the explicit offsets/strides from `VideoMeta`. -/
def DmaBufFrameData.from_raw_fd_nv12_with_offsets
    (dup_fd fourcc modifier width height y_stride uv_stride y_offset uv_offset : Nat) :
    DmaBufFrameData :=
  { fourcc := fourcc
    modifier := modifier
    planes := [
      { fd := dup_fd, offset := y_offset, stride := y_stride },
      { fd := dup_fd, offset := uv_offset, stride := uv_stride }]
    width := width
    height := height }

/-! ## Queued frames and the bounded frame queue (src/frame_queue.rs) -/

/-- `FrameContent`: raw pixel data or a DMA-BUF reference. -/
inductive FrameContent where
  | raw (data : List Nat)
  | dmabuf (data : DmaBufFrameData)
deriving Repr, DecidableEq

/-- `QueuedFrame` (src/frame_queue.rs, lines 252-263).  The `queued_at`
instant is wall-clock debugging metadata and carries no queue logic, so it
is not modelled. -/
structure QueuedFrame where
  content : FrameContent
  width : Nat
  height : Nat
  pts_ns : Option Nat
deriving Repr, DecidableEq

/-- A concrete frame for instantiating theorems: a 1x1 raw frame whose
payload and timestamp are the given tag. -/
def sampleFrame (tag : Nat) : QueuedFrame :=
  { content := FrameContent.raw [tag], width := 1, height := 1, pts_ns := some tag }

/-- `FrameQueue` (src/frame_queue.rs, lines 348-368): ring buffer, ring
positions and count, last-frame cache, stopped flag and the four
statistics counters. -/
structure FrameQueue where
  frames : List (Option QueuedFrame)
  capacity : Nat
  write_pos : Nat
  read_pos : Nat
  count : Nat
  last_frame : Option QueuedFrame
  stopped : Bool
  stats_pushed : Nat
  stats_dropped : Nat
  stats_popped : Nat
  stats_reused : Nat
deriving Repr, DecidableEq

namespace FrameQueue

/-- `DEFAULT_QUEUE_CAPACITY` (src/frame_queue.rs, line 45). -/
def DEFAULT_QUEUE_CAPACITY : Nat := 3

/-- `FrameQueue::new` (src/frame_queue.rs, lines 372-389): the requested
capacity is raised to a minimum of 2, and every slot starts empty. -/
def new (capacity : Nat) : FrameQueue :=
  let cap := capacity.max 2
  { frames := List.replicate cap none
    capacity := cap
    write_pos := 0
    read_pos := 0
    count := 0
    last_frame := none
    stopped := false
    stats_pushed := 0
    stats_dropped := 0
    stats_popped := 0
    stats_reused := 0 }

/-- The drop-oldest half of `FrameQueue::push` (src/frame_queue.rs,
lines 424-436): advance the read position, clear the oldest slot, and
record the drop. -/
def drop_oldest (q : FrameQueue) : FrameQueue :=
  { q with
    frames := q.frames.set (q.read_pos % q.capacity) none
    read_pos := q.read_pos + 1
    count := q.count - 1
    stats_dropped := q.stats_dropped + 1 }

/-- The write half of `FrameQueue::push` (src/frame_queue.rs,
lines 438-443): store the frame at the write index and advance. -/
def write_frame (q : FrameQueue) (frame : QueuedFrame) : FrameQueue :=
  { q with
    frames := q.frames.set (q.write_pos % q.capacity) (some frame)
    write_pos := q.write_pos + 1
    count := q.count + 1
    stats_pushed := q.stats_pushed + 1 }

/-- `FrameQueue::push` (src/frame_queue.rs, lines 402-446), no-contention
branch of `try_lock`.  Returns the updated queue and the Rust return
value.  If stopped, returns `false` and changes nothing; if full, drops
the oldest slot before inserting. -/
def push (q : FrameQueue) (frame : QueuedFrame) : FrameQueue × Bool :=
  if q.stopped then (q, false)
  else ((if q.capacity ≤ q.count then q.drop_oldest else q).write_frame frame, true)

/-- `FrameQueue::try_pop` (src/frame_queue.rs, lines 452-482),
no-contention branch: returns `none` immediately when empty; on success
takes the oldest slot, advances the read position and refreshes the
last-frame cache with a clone of the popped frame. -/
def try_pop (q : FrameQueue) : FrameQueue × Option QueuedFrame :=
  if q.count = 0 then (q, none)
  else
    match q.frames.getD (q.read_pos % q.capacity) none with
    | some frame =>
        ({ q with
           frames := q.frames.set (q.read_pos % q.capacity) none
           read_pos := q.read_pos + 1
           count := q.count - 1
           stats_popped := q.stats_popped + 1
           last_frame := some frame }, some frame)
    | none => (q, none)

/-- `FrameQueue::get_render_frame` (src/frame_queue.rs, lines 492-506):
tries `try_pop`; on `none`, bumps the reused counter and returns the
last-frame cache. -/
def get_render_frame (q : FrameQueue) : FrameQueue × Option QueuedFrame :=
  match q.try_pop with
  | (q1, some frame) => (q1, some frame)
  | (q1, none) =>
      ({ q1 with stats_reused := q1.stats_reused + 1 }, q1.last_frame)

/-- `FrameQueue::stop` (src/frame_queue.rs, lines 539-541). -/
def stop (q : FrameQueue) : FrameQueue :=
  { q with stopped := true }

/-- `FrameQueue::len` (src/frame_queue.rs, lines 559-561). -/
def len (q : FrameQueue) : Nat := q.count

/-- Number of frames actually resident in the ring buffer (the occupied
slots), as distinct from the `count` atomic. -/
def resident (q : FrameQueue) : Nat := q.frames.countP (fun s => s.isSome)

/-- One queue operation of the producer/consumer interface. -/
inductive Op where
  | push (frame : QueuedFrame)
  | tryPop
  | getRenderFrame
  | stop
deriving Repr

/-- Apply one operation to the queue state (discarding the return value). -/
def step (q : FrameQueue) : Op → FrameQueue
  | .push f => (q.push f).1
  | .tryPop => q.try_pop.1
  | .getRenderFrame => q.get_render_frame.1
  | .stop => q.stop

/-- Run a sequence of operations from a starting state. -/
def run (q : FrameQueue) (ops : List Op) : FrameQueue :=
  ops.foldl step q

end FrameQueue

/-! ## Conversion advisor (src/convert.rs)

All external effects (ffprobe, ffmpeg, gst-launch, GPU detection, file
metadata) are abstracted into an explicit environment record `ConvEnv`,
one field per external observation, so the control flow of
`needs_conversion`, `convert_to_vp9` and `get_optimal_video_path` is a
pure function of the environment. -/

/-- `UNIVERSAL_HW_CODECS` (src/convert.rs, line 46). -/
def UNIVERSAL_HW_CODECS : List String := ["vp9", "vp8", "av1"]

/-- `CONVERTIBLE_CODECS` (src/convert.rs, line 51). -/
def CONVERTIBLE_CODECS : List String :=
  ["mpeg4", "mpeg2video", "msmpeg4", "mpeg1video", "mjpeg"]

/-- `PROBLEMATIC_CODECS` (src/convert.rs, line 55). -/
def PROBLEMATIC_CODECS : List String := ["h264", "hevc", "h265"]

/-- Character-list version of Rust's `str::starts_with`. -/
def charsStartWith : List Char → List Char → Bool
  | _, [] => true
  | [], _ :: _ => false
  | c :: cs, d :: ds => c == d && charsStartWith cs ds

/-- Character-list version of Rust's `str::contains` (substring test),
with the needle first. -/
def charsContain (sub : List Char) : List Char → Bool
  | [] => charsStartWith [] sub
  | c :: t => charsStartWith (c :: t) sub || charsContain sub t

/-- Rust's `String::contains(&str)`: `strContains hay sub` is true when
`sub` occurs contiguously in `hay`. -/
def strContains (hay sub : String) : Bool := charsContain sub.data hay.data

/-- Environment of external observations made by src/convert.rs. -/
structure ConvEnv where
  /-- `has_nvidia_gpu()` -/
  nvidia : Bool
  /-- `probe_video_codec(path)`: the lowercased codec name, if ffprobe succeeded -/
  probe : Option String
  /-- `get_cached_path(source).is_some()` -/
  cachePathOk : Bool
  /-- `cached_path.exists()` -/
  cachedExists : Bool
  /-- size of the cached artifact in bytes (0 when metadata cannot be read) -/
  cachedSize : Nat
  /-- `is_ffmpeg_available()` -/
  ffmpeg : Bool
  /-- `create_dir_all(cache_dir)` succeeded -/
  mkdirOk : Bool
  /-- `has_gstreamer()` -/
  gst : Bool
  /-- `convert_with_gstreamer` succeeded (this includes its internal
  checks that the intermediate and final outputs are non-empty) -/
  gstConvertOk : Bool
  /-- `has_vaapi_hwaccel()` -/
  vaapi : Bool
  /-- the chosen ffmpeg invocation spawned and exited successfully -/
  ffmpegRunOk : Bool
  /-- the software-decode ffmpeg fallback after a VAAPI failure succeeded -/
  ffmpegFallbackOk : Bool
  /-- size of the produced output file in bytes (0 when missing) -/
  outSize : Nat
deriving Repr, DecidableEq

/-- Rust's `str::to_lowercase` restricted to its ASCII action, which is
all that extension and codec names use. -/
def lowerStr (s : String) : String := ⟨s.data.map Char.toLower⟩

/-- `needs_conversion` (src/convert.rs, lines 157-226): extension checks
first, then the NVIDIA shortcut, then the probed-codec routing.  A failed
probe returns `true` (assume conversion needed). -/
def needs_conversion (ext : Option String) (env : ConvEnv) : Bool :=
  if (ext.map (fun e => lowerStr e == "gif")).getD false then false
  else if (ext.map (fun e => lowerStr e == "webm")).getD false then false
  else if env.nvidia then false
  else
    match env.probe with
    | none => true
    | some codec =>
        if UNIVERSAL_HW_CODECS.any (fun c => strContains codec c) then false
        else if CONVERTIBLE_CODECS.any (fun c => strContains codec c) then true
        else if PROBLEMATIC_CODECS.any (fun c => strContains codec c) then true
        else false

/-- The `is_h264_hevc` routing flag of `convert_to_vp9`
(src/convert.rs, line 438), which routes H.264/HEVC through the
GStreamer-decode conversion pipeline. -/
def is_problematic (codec : String) : Bool :=
  PROBLEMATIC_CODECS.any (fun c => strContains codec c)

/-- The path returned to the caller: the original source file or the
cached converted artifact. -/
inductive VideoPath where
  | original
  | cached
deriving Repr, DecidableEq

/-- Observable outcome of `convert_to_vp9`: the `Result` value, whether a
stale zero-byte cache artifact was deleted, and whether any converter
process (GStreamer or ffmpeg) was actually invoked. -/
structure ConvOut where
  result : Option VideoPath
  deletedStaleCache : Bool
  ranConverter : Bool
deriving Repr, DecidableEq

/-- `convert_to_vp9` (src/convert.rs, lines 402-592): cache-hit
short-circuit on an existing non-empty artifact; an existing empty
artifact is deleted and treated as a miss; then ffmpeg availability and
cache-directory creation are required; H.264/HEVC goes through
GStreamer when available, falling back to ffmpeg; the ffmpeg path picks
VAAPI or software decode and retries in software when VAAPI fails; a
zero-byte output is deleted and reported as failure. -/
def convert_to_vp9 (env : ConvEnv) : ConvOut :=
  if !env.cachePathOk then ⟨none, false, false⟩
  else if env.cachedExists && decide (0 < env.cachedSize) then ⟨some .cached, false, false⟩
  else
    let deleted := env.cachedExists
    if !env.ffmpeg then ⟨none, deleted, false⟩
    else if !env.mkdirOk then ⟨none, deleted, false⟩
    else
      let codec := env.probe.getD ""
      let isH := is_problematic codec
      if isH && env.gst && env.gstConvertOk then ⟨some .cached, deleted, true⟩
      else
        let use_vaapi := env.vaapi && !env.nvidia && !isH
        let success :=
          if use_vaapi then env.ffmpegRunOk || env.ffmpegFallbackOk
          else env.ffmpegRunOk
        if !success then ⟨none, deleted, true⟩
        else if env.outSize = 0 then ⟨none, deleted, true⟩
        else ⟨some .cached, deleted, true⟩

/-- `get_optimal_video_path` (src/convert.rs, lines 606-632): no
conversion needed returns the source; a conversion failure is non-fatal
and also returns the source. -/
def get_optimal_video_path (ext : Option String) (env : ConvEnv) : VideoPath :=
  if !needs_conversion ext env then .original
  else
    match (convert_to_vp9 env).result with
    | some p => p
    | none => .original

/-! ## Animated-AVIF detection (src/animated/detection.rs)

The file is modelled as `Option (List Nat)`: `none` for a file that
cannot be opened, `some bytes` for its byte contents (each byte < 256). -/

/-- The ASCII bytes of `"ftyp"`. -/
def ftypBytes : List Nat := [0x66, 0x74, 0x79, 0x70]

/-- The ASCII bytes of `"avis"`. -/
def avisBytes : List Nat := [0x61, 0x76, 0x69, 0x73]

/-- The ASCII bytes of `"avif"`. -/
def avifBytes : List Nat := [0x61, 0x76, 0x69, 0x66]

/-- `u32::from_be_bytes` over the first four entries. -/
def be32 (b : List Nat) : Nat :=
  b.getD 0 0 * 2 ^ 24 + b.getD 1 0 * 2 ^ 16 + b.getD 2 0 * 2 ^ 8 + b.getD 3 0

/-- The declared size of the leading box (header bytes 0-3, big-endian). -/
def boxSize (bytes : List Nat) : Nat := be32 (bytes.take 4)

/-- The box type (header bytes 4-7). -/
def boxType (bytes : List Nat) : List Nat := (bytes.drop 4).take 4

/-- The major brand (header bytes 8-11). -/
def majorBrand (bytes : List Nat) : List Nat := (bytes.drop 8).take 4

/-- The compatible-brands region scanned by the code: the bytes of the
ftyp box after the 12-byte header, minus the 4-byte minor version. -/
def compatibleBrands (bytes : List Nat) : List Nat :=
  ((bytes.drop 12).take (boxSize bytes - 12)).drop 4

/-- The `chunks_exact(4)` scan for the `avis` brand: consecutive 4-byte
chunks, any trailing shorter chunk ignored. -/
def hasAvisChunk : List Nat → Bool
  | a :: b :: c :: d :: rest =>
      if [a, b, c, d] = avisBytes then true else hasAvisChunk rest
  | _ => false

/-- `is_animated_avif` (src/animated/detection.rs, lines 198-250).
Returns false for an unopenable file, a file shorter than 12 bytes, or a
non-ftyp leading box; true on major brand `avis`; otherwise scans the
compatible brands, but only when the declared box size is in `(12, 256]`
and the whole box can be read. -/
def is_animated_avif : Option (List Nat) → Bool
  | none => false
  | some bytes =>
      if bytes.length < 12 then false
      else if boxType bytes ≠ ftypBytes then false
      else if majorBrand bytes = avisBytes then true
      else if 12 < boxSize bytes ∧ boxSize bytes ≤ 256 then
        if boxSize bytes ≤ bytes.length then
          if 4 ≤ boxSize bytes - 12 then hasAvisChunk (compatibleBrands bytes)
          else false
        else false
      else false

/-- A 260-byte AVIF header: box size 260 (> 256), box type `ftyp`, major
brand `avif`, minor version 0, and `avis` as the first compatible brand. -/
def avifCexBytes : List Nat :=
  [0, 0, 1, 4] ++ ftypBytes ++ avifBytes ++ [0, 0, 0, 0] ++ avisBytes
    ++ List.replicate 240 0

/-! ## Frame-rate probe (src/animated/video_player.rs, lines 536-604)

The GStreamer interaction is abstracted into the probe outcome; the
`f64` division of the source is modelled exactly over `ℚ` (durations are
in seconds). -/

/-- `DEFAULT_FRAME_DURATION` (src/animated/types.rs, line 15):
16 milliseconds, in seconds. -/
def DEFAULT_FRAME_DURATION : ℚ := 16 / 1000

/-- `MIN_FRAME_DURATION` (src/animated/types.rs, line 18):
16 milliseconds, in seconds. -/
def MIN_FRAME_DURATION : ℚ := 16 / 1000

/-- Outcome of the pipeline/caps inspection performed by
`detect_framerate`: each early-return condition, or a negotiated
framerate fraction (`i32` numerator and denominator). -/
inductive FramerateProbe where
  | pauseFail
  | stateFail
  | noPad
  | noCaps
  | noStructure
  | noFramerate
  | framerate (numer denom : Int)
deriving Repr, DecidableEq

/-- `VideoPlayer::detect_framerate` (src/animated/video_player.rs,
lines 536-604): every failure to read a positive framerate returns
`DEFAULT_FRAME_DURATION`; a positive `numer/denom` framerate returns
`denom / numer` seconds, clamped from below by `MIN_FRAME_DURATION`. -/
def detect_framerate (p : FramerateProbe) : ℚ :=
  match p with
  | .framerate n d =>
      if 0 < n ∧ 0 < d then max ((d : ℚ) / (n : ℚ)) MIN_FRAME_DURATION
      else DEFAULT_FRAME_DURATION
  | _ => DEFAULT_FRAME_DURATION

/-! ## List helper lemmas -/

/-- Reading a slot just written. -/
theorem getD_set_self {α : Type} (l : List α) {i : Nat} (hi : i < l.length) (v d : α) :
    (l.set i v).getD i d = v := by
  rw [List.getD_eq_getD_get?, List.get?_eq_getElem?, List.getElem?_set_eq_of_lt v hi]
  rfl

/-- Reading a slot other than the one written. -/
theorem getD_set_ne {α : Type} (l : List α) {i j : Nat} (h : i ≠ j) (v d : α) :
    (l.set i v).getD j d = l.getD j d := by
  rw [List.getD_eq_getD_get?, List.getD_eq_getD_get?, List.get?_eq_getElem?,
    List.get?_eq_getElem?, List.getElem?_set_ne h]

/-- How `countP` changes under a single `set`. -/
theorem countP_set {α : Type} (p : α → Bool) (l : List α) {i : Nat} (hi : i < l.length)
    (v d : α) :
    (l.set i v).countP p + (if p (l.getD i d) then 1 else 0)
      = l.countP p + (if p v then 1 else 0) := by
  induction l generalizing i with
  | nil => simp at hi
  | cons a t ih =>
      cases i with
      | zero => simp [List.countP_cons]; omega
      | succ n =>
          have hn : n < t.length := by simpa using hi
          have := ih hn
          simp only [List.set_cons_succ, List.countP_cons, List.getD_cons_succ]
          omega

/-- Cancellation of addition under `Nat` mod, for summands below the modulus. -/
theorem add_mod_inj {c : Nat} (r : Nat) {j k : Nat} (hj : j < c) (hk : k < c)
    (h : (r + j) % c = (r + k) % c) : j = k := by
  have hmod : j ≡ k [MOD c] := Nat.ModEq.add_left_cancel' r h
  have : j % c = k % c := hmod
  rw [Nat.mod_eq_of_lt hj, Nat.mod_eq_of_lt hk] at this
  exact this

namespace FrameQueue

/-! ## The queue invariant -/

/-- The slot-occupancy predicate: ring slot `i` is inside the live window
`[read_pos, read_pos + count)` taken modulo `capacity`. -/
def occupied (q : FrameQueue) (i : Nat) : Prop :=
  ∃ j, j < q.count ∧ (q.read_pos + j) % q.capacity = i

/-- The `FrameQueue` invariant: the ring buffer has exactly `capacity`
slots, the count is bounded by the capacity, the write position leads
the read position by `count`, a slot holds a frame exactly when it is
in the live window, the number of resident frames equals `count`, the
statistics counters balance, and a pushed frame implies a resident or
cached frame. -/
structure Inv (q : FrameQueue) : Prop where
  len_eq : q.frames.length = q.capacity
  two_le : 2 ≤ q.capacity
  count_le : q.count ≤ q.capacity
  wr : q.write_pos = q.read_pos + q.count
  occ : ∀ i, i < q.capacity →
    ((q.frames.getD i none).isSome = true ↔ occupied q i)
  res : q.resident = q.count
  stats : q.stats_pushed = q.stats_dropped + q.stats_popped + q.count
  ever : 0 < q.stats_pushed → 0 < q.count ∨ q.last_frame.isSome = true

theorem getD_replicate {α : Type} (n i : Nat) (d : α) :
    (List.replicate n d).getD i d = d := by
  induction n generalizing i with
  | zero => simp [List.getD_eq_default]
  | succ m ih =>
      cases i with
      | zero => simp [List.replicate_succ]
      | succ l => simp [List.replicate_succ, List.getD_cons_succ, ih]

theorem inv_new (c : Nat) : Inv (new c) := by
  refine ⟨?_, ?_, ?_, ?_, ?_, ?_, ?_, ?_⟩
  · simp [new]
  · exact Nat.le_max_right c 2
  · simp [new]
  · simp [new]
  · intro i _
    simp only [new, getD_replicate, Option.isSome_none, occupied]
    constructor
    · intro h; cases h
    · rintro ⟨j, hj, -⟩; simp [new] at hj
  · simp [new, resident, List.countP_eq_length_filter, List.filter_replicate]
  · simp [new]
  · simp [new]

/-! Projection lemmas for explicit `FrameQueue` literals. -/

@[simp] theorem mk_frames (a : List (Option QueuedFrame)) (b c2 d e : Nat)
    (g : Option QueuedFrame) (s : Bool) (p dr pp r : Nat) :
    (FrameQueue.mk a b c2 d e g s p dr pp r).frames = a := rfl
@[simp] theorem mk_capacity (a : List (Option QueuedFrame)) (b c2 d e : Nat)
    (g : Option QueuedFrame) (s : Bool) (p dr pp r : Nat) :
    (FrameQueue.mk a b c2 d e g s p dr pp r).capacity = b := rfl
@[simp] theorem mk_write_pos (a : List (Option QueuedFrame)) (b c2 d e : Nat)
    (g : Option QueuedFrame) (s : Bool) (p dr pp r : Nat) :
    (FrameQueue.mk a b c2 d e g s p dr pp r).write_pos = c2 := rfl
@[simp] theorem mk_read_pos (a : List (Option QueuedFrame)) (b c2 d e : Nat)
    (g : Option QueuedFrame) (s : Bool) (p dr pp r : Nat) :
    (FrameQueue.mk a b c2 d e g s p dr pp r).read_pos = d := rfl
@[simp] theorem mk_count (a : List (Option QueuedFrame)) (b c2 d e : Nat)
    (g : Option QueuedFrame) (s : Bool) (p dr pp r : Nat) :
    (FrameQueue.mk a b c2 d e g s p dr pp r).count = e := rfl
@[simp] theorem mk_last_frame (a : List (Option QueuedFrame)) (b c2 d e : Nat)
    (g : Option QueuedFrame) (s : Bool) (p dr pp r : Nat) :
    (FrameQueue.mk a b c2 d e g s p dr pp r).last_frame = g := rfl
@[simp] theorem mk_stopped (a : List (Option QueuedFrame)) (b c2 d e : Nat)
    (g : Option QueuedFrame) (s : Bool) (p dr pp r : Nat) :
    (FrameQueue.mk a b c2 d e g s p dr pp r).stopped = s := rfl
@[simp] theorem mk_stats_pushed (a : List (Option QueuedFrame)) (b c2 d e : Nat)
    (g : Option QueuedFrame) (s : Bool) (p dr pp r : Nat) :
    (FrameQueue.mk a b c2 d e g s p dr pp r).stats_pushed = p := rfl
@[simp] theorem mk_stats_dropped (a : List (Option QueuedFrame)) (b c2 d e : Nat)
    (g : Option QueuedFrame) (s : Bool) (p dr pp r : Nat) :
    (FrameQueue.mk a b c2 d e g s p dr pp r).stats_dropped = dr := rfl
@[simp] theorem mk_stats_popped (a : List (Option QueuedFrame)) (b c2 d e : Nat)
    (g : Option QueuedFrame) (s : Bool) (p dr pp r : Nat) :
    (FrameQueue.mk a b c2 d e g s p dr pp r).stats_popped = pp := rfl
@[simp] theorem mk_stats_reused (a : List (Option QueuedFrame)) (b c2 d e : Nat)
    (g : Option QueuedFrame) (s : Bool) (p dr pp r : Nat) :
    (FrameQueue.mk a b c2 d e g s p dr pp r).stats_reused = r := rfl

/-! Field lemmas for the state transformers, so that proofs can rewrite
by field instead of unfolding record literals. -/

@[simp] theorem write_frame_frames (q : FrameQueue) (f : QueuedFrame) :
    (q.write_frame f).frames = q.frames.set (q.write_pos % q.capacity) (some f) := rfl
@[simp] theorem write_frame_capacity (q : FrameQueue) (f : QueuedFrame) :
    (q.write_frame f).capacity = q.capacity := rfl
@[simp] theorem write_frame_write_pos (q : FrameQueue) (f : QueuedFrame) :
    (q.write_frame f).write_pos = q.write_pos + 1 := rfl
@[simp] theorem write_frame_read_pos (q : FrameQueue) (f : QueuedFrame) :
    (q.write_frame f).read_pos = q.read_pos := rfl
@[simp] theorem write_frame_count (q : FrameQueue) (f : QueuedFrame) :
    (q.write_frame f).count = q.count + 1 := rfl
@[simp] theorem write_frame_last_frame (q : FrameQueue) (f : QueuedFrame) :
    (q.write_frame f).last_frame = q.last_frame := rfl
@[simp] theorem write_frame_stopped (q : FrameQueue) (f : QueuedFrame) :
    (q.write_frame f).stopped = q.stopped := rfl
@[simp] theorem write_frame_stats_pushed (q : FrameQueue) (f : QueuedFrame) :
    (q.write_frame f).stats_pushed = q.stats_pushed + 1 := rfl
@[simp] theorem write_frame_stats_dropped (q : FrameQueue) (f : QueuedFrame) :
    (q.write_frame f).stats_dropped = q.stats_dropped := rfl
@[simp] theorem write_frame_stats_popped (q : FrameQueue) (f : QueuedFrame) :
    (q.write_frame f).stats_popped = q.stats_popped := rfl
@[simp] theorem write_frame_stats_reused (q : FrameQueue) (f : QueuedFrame) :
    (q.write_frame f).stats_reused = q.stats_reused := rfl

@[simp] theorem drop_oldest_frames (q : FrameQueue) :
    q.drop_oldest.frames = q.frames.set (q.read_pos % q.capacity) none := rfl
@[simp] theorem drop_oldest_capacity (q : FrameQueue) :
    q.drop_oldest.capacity = q.capacity := rfl
@[simp] theorem drop_oldest_write_pos (q : FrameQueue) :
    q.drop_oldest.write_pos = q.write_pos := rfl
@[simp] theorem drop_oldest_read_pos (q : FrameQueue) :
    q.drop_oldest.read_pos = q.read_pos + 1 := rfl
@[simp] theorem drop_oldest_count (q : FrameQueue) :
    q.drop_oldest.count = q.count - 1 := rfl
@[simp] theorem drop_oldest_last_frame (q : FrameQueue) :
    q.drop_oldest.last_frame = q.last_frame := rfl
@[simp] theorem drop_oldest_stopped (q : FrameQueue) :
    q.drop_oldest.stopped = q.stopped := rfl
@[simp] theorem drop_oldest_stats_pushed (q : FrameQueue) :
    q.drop_oldest.stats_pushed = q.stats_pushed := rfl
@[simp] theorem drop_oldest_stats_dropped (q : FrameQueue) :
    q.drop_oldest.stats_dropped = q.stats_dropped + 1 := rfl
@[simp] theorem drop_oldest_stats_popped (q : FrameQueue) :
    q.drop_oldest.stats_popped = q.stats_popped := rfl
@[simp] theorem drop_oldest_stats_reused (q : FrameQueue) :
    q.drop_oldest.stats_reused = q.stats_reused := rfl

@[simp] theorem stop_frames (q : FrameQueue) : q.stop.frames = q.frames := rfl
@[simp] theorem stop_capacity (q : FrameQueue) : q.stop.capacity = q.capacity := rfl
@[simp] theorem stop_write_pos (q : FrameQueue) : q.stop.write_pos = q.write_pos := rfl
@[simp] theorem stop_read_pos (q : FrameQueue) : q.stop.read_pos = q.read_pos := rfl
@[simp] theorem stop_count (q : FrameQueue) : q.stop.count = q.count := rfl
@[simp] theorem stop_last_frame (q : FrameQueue) : q.stop.last_frame = q.last_frame := rfl
@[simp] theorem stop_stopped (q : FrameQueue) : q.stop.stopped = true := rfl
@[simp] theorem stop_stats_pushed (q : FrameQueue) :
    q.stop.stats_pushed = q.stats_pushed := rfl
@[simp] theorem stop_stats_dropped (q : FrameQueue) :
    q.stop.stats_dropped = q.stats_dropped := rfl
@[simp] theorem stop_stats_popped (q : FrameQueue) :
    q.stop.stats_popped = q.stats_popped := rfl
@[simp] theorem stop_stats_reused (q : FrameQueue) :
    q.stop.stats_reused = q.stats_reused := rfl

/-- Writing into a non-full queue preserves the invariant. -/
theorem inv_write_frame (q : FrameQueue) (f : QueuedFrame) (h : Inv q)
    (hlt : q.count < q.capacity) : Inv (q.write_frame f) := by
  obtain ⟨len_eq, two_le, count_le, wr, occ, res, stats, ever⟩ := h
  have hcpos : 0 < q.capacity := by omega
  have hwilt : q.write_pos % q.capacity < q.capacity := Nat.mod_lt _ hcpos
  have hwi_len : q.write_pos % q.capacity < q.frames.length := by rw [len_eq]; exact hwilt
  have hempty : (q.frames.getD (q.write_pos % q.capacity) none).isSome = false := by
    cases hval : q.frames.getD (q.write_pos % q.capacity) none with
    | none => rfl
    | some g =>
        exfalso
        obtain ⟨j, hj, hjeq⟩ := (occ _ hwilt).mp (by rw [hval]; rfl)
        have hj_eq : j = q.count := by
          apply add_mod_inj q.read_pos (by omega) hlt
          rw [hjeq, ← wr]
        omega
  refine ⟨?_, ?_, ?_, ?_, ?_, ?_, ?_, ?_⟩
  · simp [len_eq]
  · simpa using two_le
  · simp; omega
  · simp [wr]; omega
  · intro i hi
    simp only [write_frame_capacity] at hi
    simp only [write_frame_frames, occupied, write_frame_count, write_frame_read_pos,
      write_frame_capacity]
    rcases eq_or_ne i (q.write_pos % q.capacity) with heq | hne
    · subst heq
      rw [getD_set_self _ hwi_len]
      simp only [Option.isSome_some, true_iff]
      exact ⟨q.count, by omega, by rw [← wr]⟩
    · rw [getD_set_ne _ (Ne.symm hne), occ i hi]
      unfold occupied
      constructor
      · rintro ⟨j, hj, hjeq⟩
        exact ⟨j, by omega, hjeq⟩
      · rintro ⟨j, hj, hjeq⟩
        refine ⟨j, ?_, hjeq⟩
        rcases Nat.lt_or_ge j q.count with hlt2 | hge
        · exact hlt2
        · exfalso
          have hj_eq : j = q.count := by omega
          subst hj_eq
          exact hne (by rw [← hjeq, ← wr])
  · have hcount := countP_set (fun s => s.isSome) q.frames hwi_len (some f) none
    simp only [hempty, Option.isSome_some, if_false, if_true, Bool.false_eq_true] at hcount
    simp only [resident, write_frame_frames, write_frame_count]
    simp only [resident] at res
    omega
  · simp; omega
  · simp

/-- Clearing the oldest slot rewrites the occupancy window. -/
theorem clear_oldest_occ (q : FrameQueue) (h : Inv q) (hpos : 0 < q.count) :
    ∀ i, i < q.capacity →
      (((q.frames.set (q.read_pos % q.capacity) none).getD i none).isSome = true
        ↔ ∃ j, j < q.count - 1 ∧ (q.read_pos + 1 + j) % q.capacity = i) := by
  obtain ⟨len_eq, two_le, count_le, wr, occ, res, stats, ever⟩ := h
  have hcpos : 0 < q.capacity := by omega
  have hrilt : q.read_pos % q.capacity < q.capacity := Nat.mod_lt _ hcpos
  have hri_len : q.read_pos % q.capacity < q.frames.length := by rw [len_eq]; exact hrilt
  intro i hi
  rcases eq_or_ne i (q.read_pos % q.capacity) with heq | hne
  · subst heq
    rw [getD_set_self _ hri_len]
    simp only [Option.isSome_none, Bool.false_eq_true, false_iff]
    rintro ⟨j, hj, hjeq⟩
    have h10 : (q.read_pos + (1 + j)) % q.capacity = (q.read_pos + 0) % q.capacity := by
      have harr : q.read_pos + (1 + j) = q.read_pos + 1 + j := by omega
      rw [harr, hjeq, Nat.add_zero]
    have := add_mod_inj q.read_pos (show 1 + j < q.capacity by omega)
      (show 0 < q.capacity from hcpos) h10
    omega
  · rw [getD_set_ne _ (Ne.symm hne), occ i hi]
    unfold occupied
    constructor
    · rintro ⟨j, hj, hjeq⟩
      have hj0 : j ≠ 0 := by
        intro h0
        subst h0
        exact hne (by rw [← hjeq, Nat.add_zero])
      refine ⟨j - 1, by omega, ?_⟩
      have harr : q.read_pos + 1 + (j - 1) = q.read_pos + j := by omega
      rw [harr, hjeq]
    · rintro ⟨j, hj, hjeq⟩
      refine ⟨1 + j, by omega, ?_⟩
      have harr : q.read_pos + (1 + j) = q.read_pos + 1 + j := by omega
      rw [harr, hjeq]

/-- Clearing the oldest slot removes exactly one resident frame. -/
theorem clear_oldest_res (q : FrameQueue) (h : Inv q) (hpos : 0 < q.count) :
    (q.frames.set (q.read_pos % q.capacity) none).countP (fun s => s.isSome)
      = q.count - 1 := by
  have hcpos : 0 < q.capacity := by have := h.two_le; omega
  have hrilt : q.read_pos % q.capacity < q.capacity := Nat.mod_lt _ hcpos
  have hri_len : q.read_pos % q.capacity < q.frames.length := by
    rw [h.len_eq]; exact hrilt
  have hsome : (q.frames.getD (q.read_pos % q.capacity) none).isSome = true :=
    (h.occ _ hrilt).mpr ⟨0, hpos, by rw [Nat.add_zero]⟩
  have hcount := countP_set (fun s => s.isSome) q.frames hri_len none none
  have hres := h.res
  simp only [hsome, Option.isSome_none, if_true, if_false, Bool.false_eq_true] at hcount
  simp only [resident] at hres
  omega

/-- The oldest occupied slot actually holds a frame. -/
theorem oldest_isSome (q : FrameQueue) (h : Inv q) (hpos : 0 < q.count) :
    ∃ f, q.frames.getD (q.read_pos % q.capacity) none = some f := by
  have hcpos : 0 < q.capacity := by have := h.two_le; omega
  have hrilt : q.read_pos % q.capacity < q.capacity := Nat.mod_lt _ hcpos
  have hsome : (q.frames.getD (q.read_pos % q.capacity) none).isSome = true :=
    (h.occ _ hrilt).mpr ⟨0, hpos, by rw [Nat.add_zero]⟩
  cases hval : q.frames.getD (q.read_pos % q.capacity) none with
  | none => rw [hval] at hsome; cases hsome
  | some f => exact ⟨f, rfl⟩

/-- Dropping the oldest frame of a full queue preserves the invariant. -/
theorem inv_drop_oldest (q : FrameQueue) (h : Inv q) (hfull : q.capacity ≤ q.count) :
    Inv q.drop_oldest := by
  have hpos : 0 < q.count := by have := h.two_le; omega
  have hocc := clear_oldest_occ q h hpos
  have hres := clear_oldest_res q h hpos
  obtain ⟨len_eq, two_le, count_le, wr, occ, res, stats, ever⟩ := h
  refine ⟨?_, ?_, ?_, ?_, ?_, ?_, ?_, ?_⟩
  · simp [len_eq]
  · simpa using two_le
  · simp; omega
  · simp; omega
  · intro i hi
    simp only [drop_oldest_capacity] at hi
    simp only [drop_oldest_frames, occupied, drop_oldest_count, drop_oldest_read_pos,
      drop_oldest_capacity]
    exact hocc i hi
  · simp only [resident, drop_oldest_frames, drop_oldest_count]
    exact hres
  · simp; omega
  · simp
    intro _
    left
    omega

/-- After a drop the queue is strictly below capacity. -/
theorem drop_oldest_count_lt (q : FrameQueue) (h : Inv q) :
    q.drop_oldest.count < q.drop_oldest.capacity := by
  have h1 := h.count_le
  have h2 := h.two_le
  simp
  omega

/-- `push` preserves the invariant. -/
theorem inv_push (q : FrameQueue) (f : QueuedFrame) (h : Inv q) : Inv (q.push f).1 := by
  by_cases hst : q.stopped = true
  · simpa [push, hst] using h
  · by_cases hfull : q.capacity ≤ q.count
    · have h1 := inv_drop_oldest q h hfull
      have hlt := drop_oldest_count_lt q h
      have h2 := inv_write_frame _ f h1 hlt
      simpa [push, hst, hfull] using h2
    · have h2 := inv_write_frame q f h (by omega)
      simpa [push, hst, hfull] using h2

/-- Characterization of `try_pop` on a nonempty invariant queue. -/
theorem try_pop_nonempty (q : FrameQueue) (h : Inv q) (hpos : 0 < q.count) :
    ∃ f, q.frames.getD (q.read_pos % q.capacity) none = some f ∧
      q.try_pop = ({ q with
        frames := q.frames.set (q.read_pos % q.capacity) none
        read_pos := q.read_pos + 1
        count := q.count - 1
        stats_popped := q.stats_popped + 1
        last_frame := some f }, some f) := by
  obtain ⟨f, hf⟩ := oldest_isSome q h hpos
  refine ⟨f, hf, ?_⟩
  rw [try_pop, if_neg (by omega), hf]

/-- `try_pop` preserves the invariant. -/
theorem inv_try_pop (q : FrameQueue) (h : Inv q) : Inv q.try_pop.1 := by
  by_cases h0 : q.count = 0
  · simpa [try_pop, h0] using h
  · have hpos : 0 < q.count := Nat.pos_of_ne_zero h0
    obtain ⟨f, hf, hpop⟩ := try_pop_nonempty q h hpos
    have hocc := clear_oldest_occ q h hpos
    have hres := clear_oldest_res q h hpos
    obtain ⟨len_eq, two_le, count_le, wr, occ, res, stats, ever⟩ := h
    rw [hpop]
    refine ⟨?_, ?_, ?_, ?_, ?_, ?_, ?_, ?_⟩
    · simpa using len_eq
    · exact two_le
    · dsimp; omega
    · dsimp; omega
    · intro i hi
      dsimp at hi
      unfold occupied
      dsimp
      exact hocc i hi
    · simp only [resident]
      exact hres
    · dsimp; omega
    · intro _
      right
      rfl

/-- `get_render_frame` preserves the invariant. -/
theorem inv_get_render_frame (q : FrameQueue) (h : Inv q) : Inv q.get_render_frame.1 := by
  have h1 := inv_try_pop q h
  rcases hp : q.try_pop with ⟨q1, r⟩
  rw [hp] at h1
  cases r with
  | some f => simpa [get_render_frame, hp] using h1
  | none =>
      obtain ⟨len_eq, two_le, count_le, wr, occ, res, stats, ever⟩ := h1
      simp only [get_render_frame, hp]
      exact ⟨len_eq, two_le, count_le, wr, occ, res, stats, ever⟩

/-- `stop` preserves the invariant. -/
theorem inv_stop (q : FrameQueue) (h : Inv q) : Inv q.stop := by
  obtain ⟨len_eq, two_le, count_le, wr, occ, res, stats, ever⟩ := h
  exact ⟨len_eq, two_le, count_le, wr, occ, res, stats, ever⟩

/-- Every operation preserves the invariant. -/
theorem inv_step (q : FrameQueue) (op : Op) (h : Inv q) : Inv (q.step op) := by
  cases op with
  | push f => exact inv_push q f h
  | tryPop => exact inv_try_pop q h
  | getRenderFrame => exact inv_get_render_frame q h
  | stop => exact inv_stop q h

/-- Any run from an invariant state stays in the invariant. -/
theorem inv_run (q : FrameQueue) (ops : List Op) (h : Inv q) : Inv (run q ops) := by
  induction ops generalizing q with
  | nil => exact h
  | cons op rest ih => exact ih _ (inv_step q op h)

/-- `try_pop` never changes the stopped flag. -/
theorem try_pop_stopped (q : FrameQueue) : q.try_pop.1.stopped = q.stopped := by
  unfold try_pop
  split
  · rfl
  · split <;> rfl

/-- `get_render_frame` never changes the stopped flag. -/
theorem get_render_frame_stopped (q : FrameQueue) :
    q.get_render_frame.1.stopped = q.stopped := by
  have h := try_pop_stopped q
  unfold get_render_frame
  rcases hp : q.try_pop with ⟨q1, r⟩
  rw [hp] at h
  cases r <;> simpa using h

/-- A push into a stopped queue returns `false` and changes nothing. -/
theorem push_of_stopped (q : FrameQueue) (f : QueuedFrame) (h : q.stopped = true) :
    q.push f = (q, false) := by
  simp [push, h]

/-- No operation clears the stopped flag. -/
theorem stopped_step (q : FrameQueue) (op : Op) (h : q.stopped = true) :
    (q.step op).stopped = true := by
  cases op with
  | push f => simp [step, push_of_stopped q f h, h]
  | tryPop => rw [step, try_pop_stopped]; exact h
  | getRenderFrame => rw [step, get_render_frame_stopped]; exact h
  | stop => rfl

/-- The stopped flag persists through any run. -/
theorem stopped_run (q : FrameQueue) (ops : List Op) (h : q.stopped = true) :
    (run q ops).stopped = true := by
  induction ops generalizing q with
  | nil => exact h
  | cons op rest ih => exact ih _ (stopped_step q op h)

/-- Setting the element right after a prefix acts on the suffix head. -/
theorem set_append_length {α : Type} (A B : List α) (v : α) :
    (A ++ B).set A.length v = A ++ B.set 0 v := by
  induction A with
  | nil => simp
  | cons a t ih => simp [ih]

/-- The queue state after pushing the frames of `l` (at most the
capacity) into a fresh queue, in order. -/
theorem run_pushes (c : Nat) (l : List QueuedFrame) (hl : l.length ≤ c.max 2) :
    run (new c) (l.map Op.push) =
      { frames := l.map some ++ List.replicate (c.max 2 - l.length) none
        capacity := c.max 2
        write_pos := l.length
        read_pos := 0
        count := l.length
        last_frame := none
        stopped := false
        stats_pushed := l.length
        stats_dropped := 0
        stats_popped := 0
        stats_reused := 0 } := by
  induction l using List.reverseRecOn with
  | nil => simp [run, new]
  | append_singleton l0 x ih =>
      have hlen2 : l0.length + 1 ≤ c.max 2 := by
        simp only [List.length_append, List.length_cons, List.length_nil] at hl
        omega
      have hl0 : l0.length ≤ c.max 2 := by omega
      have hlt : l0.length < c.max 2 := by omega
      have hrun := ih hl0
      rw [List.map_append, run, List.foldl_append]
      rw [show (List.foldl step (new c) (l0.map Op.push)) = run (new c) (l0.map Op.push)
        from rfl, hrun]
      simp only [List.map_cons, List.map_nil, List.foldl_cons, List.foldl_nil, step]
      rw [push]
      simp only [if_neg (by simp : ¬(false = true)), if_neg (by omega : ¬(c.max 2 ≤ l0.length))]
      have hmod : l0.length % c.max 2 = l0.length := Nat.mod_eq_of_lt hlt
      have hlen : (l0.map some).length = l0.length := by simp
      have hrep : c.max 2 - l0.length = (c.max 2 - (l0.length + 1)) + 1 := by omega
      have hset : ((l0.map some ++ List.replicate (c.max 2 - l0.length) none).set
          l0.length (some x))
          = (l0 ++ [x]).map some ++ List.replicate (c.max 2 - (l0.length + 1)) none := by
        calc (l0.map some ++ List.replicate (c.max 2 - l0.length) none).set l0.length (some x)
            = (l0.map some ++ List.replicate (c.max 2 - l0.length) none).set
                (l0.map some).length (some x) := by rw [hlen]
          _ = l0.map some ++ (List.replicate (c.max 2 - l0.length) none).set 0 (some x) :=
                set_append_length _ _ _
          _ = l0.map some ++ (some x :: List.replicate (c.max 2 - (l0.length + 1)) none) := by
                rw [hrep, List.replicate_succ]
                rfl
          _ = (l0 ++ [x]).map some ++ List.replicate (c.max 2 - (l0.length + 1)) none := by
                simp
      simp only [write_frame, hmod]
      simp only [hset]
      simp

/-- On an empty queue, `get_render_frame` only bumps the reused counter
and returns the cached frame. -/
theorem get_render_frame_empty (q : FrameQueue) (h0 : q.count = 0) :
    q.get_render_frame = ({ q with stats_reused := q.stats_reused + 1 }, q.last_frame) := by
  rw [get_render_frame, try_pop, if_pos h0]

/-- Repeated reuse calls on an empty queue only accumulate the reused
counter. -/
theorem run_reuse (q : FrameQueue) (h0 : q.count = 0) (n : Nat) :
    run q (List.replicate n Op.getRenderFrame) =
      { q with stats_reused := q.stats_reused + n } := by
  induction n generalizing q with
  | zero => simp [run]
  | succ m ih =>
      rw [List.replicate_succ, run, List.foldl_cons]
      have hstep : step q Op.getRenderFrame = { q with stats_reused := q.stats_reused + 1 } := by
        rw [step, get_render_frame_empty q h0]
      rw [hstep]
      have hih := ih { q with stats_reused := q.stats_reused + 1 } h0
      rw [show (List.foldl step { q with stats_reused := q.stats_reused + 1 }
        (List.replicate m Op.getRenderFrame)) = run { q with stats_reused := q.stats_reused + 1 }
        (List.replicate m Op.getRenderFrame) from rfl, hih]
      have hproj : ({ q with stats_reused := q.stats_reused + 1 } : FrameQueue).stats_reused
          = q.stats_reused + 1 := rfl
      rw [hproj]
      congr 1
      omega

/-- The state reached by pushing one frame into a fresh queue and
popping it: empty ring, one pushed, one popped, the frame cached. -/
theorem push_pop_state (c : Nat) (f : QueuedFrame) :
    ((new c).push f).1.try_pop =
      ({ frames := none :: List.replicate (c.max 2 - 1) none
         capacity := c.max 2
         write_pos := 1
         read_pos := 1
         count := 0
         last_frame := some f
         stopped := false
         stats_pushed := 1
         stats_dropped := 0
         stats_popped := 1
         stats_reused := 0 }, some f) := by
  have hcap : 1 ≤ c.max 2 := le_trans (by norm_num) (Nat.le_max_right c 2)
  have hrun := run_pushes c [f] (by simp)
  have hone : ((new c).push f).1 = run (new c) ([f].map Op.push) := rfl
  rw [hone, hrun, try_pop]
  simp

end FrameQueue

/-! ## Claim theorems -/

/-- C1: for every capacity and every sequence of queue operations
starting from a fresh queue, the queue length stays at most the
capacity, and the pushed counter equals the dropped counter plus the
popped counter plus the number of frames still resident in the ring
buffer (so `pushed - dropped_full = popped + resident`). -/
theorem frame_queue_bound_and_balance (c : Nat) (ops : List FrameQueue.Op) :
    (FrameQueue.run (FrameQueue.new c) ops).len
        ≤ (FrameQueue.run (FrameQueue.new c) ops).capacity
    ∧ (FrameQueue.run (FrameQueue.new c) ops).stats_pushed
        = (FrameQueue.run (FrameQueue.new c) ops).stats_dropped
          + (FrameQueue.run (FrameQueue.new c) ops).stats_popped
          + (FrameQueue.run (FrameQueue.new c) ops).resident := by
  have h := FrameQueue.inv_run (FrameQueue.new c) ops (FrameQueue.inv_new c)
  refine ⟨h.count_le, ?_⟩
  rw [h.res, h.stats]

/-- C10: `FrameQueue::new c` always raises the capacity to
`max c 2`, so the capacity of every reachable state is at least 2 and
the ring-index computations never take a modulus by zero. -/
theorem frame_queue_capacity_min (c : Nat) (ops : List FrameQueue.Op) :
    (FrameQueue.new c).capacity = c.max 2
    ∧ 2 ≤ (FrameQueue.run (FrameQueue.new c) ops).capacity
    ∧ 0 < (FrameQueue.run (FrameQueue.new c) ops).capacity := by
  have h := FrameQueue.inv_run (FrameQueue.new c) ops (FrameQueue.inv_new c)
  exact ⟨rfl, h.two_le, by have := h.two_le; omega⟩

/-- C7: `push` returns `false` exactly when the queue is stopped, a push
into a stopped queue changes nothing, a push into a non-stopped queue
returns `true`, and after `stop()` every subsequent push (after any
further operations) returns `false` and leaves the state unchanged. -/
theorem frame_queue_push_false_iff_stopped (q : FrameQueue) (f : QueuedFrame)
    (ops : List FrameQueue.Op) :
    ((q.push f).2 = false ↔ q.stopped = true)
    ∧ (q.stopped = true → q.push f = (q, false))
    ∧ (q.stopped = false → (q.push f).2 = true)
    ∧ ((FrameQueue.run q.stop ops).push f).2 = false
    ∧ ((FrameQueue.run q.stop ops).push f).1 = FrameQueue.run q.stop ops := by
  have hstop : (FrameQueue.run q.stop ops).stopped = true :=
    FrameQueue.stopped_run q.stop ops rfl
  have hps := FrameQueue.push_of_stopped (FrameQueue.run q.stop ops) f hstop
  refine ⟨?_, ?_, ?_, by rw [hps], by rw [hps]⟩
  · constructor
    · intro hfalse
      by_contra hns
      have hq : q.stopped = false := by
        cases hqv : q.stopped
        · rfl
        · exact absurd hqv hns
      rw [FrameQueue.push, if_neg (by simp [hq])] at hfalse
      simp at hfalse
    · intro hs
      rw [FrameQueue.push_of_stopped q f hs]
  · intro hs
    exact FrameQueue.push_of_stopped q f hs
  · intro hns
    rw [FrameQueue.push, if_neg (by simp [hns])]

/-- Witness for C7 at a concrete stopped queue. -/
theorem frame_queue_push_false_iff_stopped_witness :
    (FrameQueue.new 2).stop.push (sampleFrame 1) = ((FrameQueue.new 2).stop, false)
    ∧ ((FrameQueue.run (FrameQueue.new 2).stop [FrameQueue.Op.tryPop]).push
        (sampleFrame 1)).2 = false
    ∧ ((FrameQueue.new 2).push (sampleFrame 1)).2 = true :=
  ⟨(frame_queue_push_false_iff_stopped (FrameQueue.new 2).stop (sampleFrame 1) []).2.1 rfl,
   (frame_queue_push_false_iff_stopped (FrameQueue.new 2) (sampleFrame 1)
     [FrameQueue.Op.tryPop]).2.2.2.1,
   (frame_queue_push_false_iff_stopped (FrameQueue.new 2) (sampleFrame 1) []).2.2.1 rfl⟩

/-- C2: pushing `g` into a non-stopped queue of capacity `k ≥ 2` that
holds exactly `f1 :: f2 :: rest` (pushed in that order, none popped)
succeeds, evicts only the oldest frame, leaves `k` frames resident, and
the next pop returns `f2`. -/
theorem frame_queue_drop_oldest_claim (k : Nat) (hk : 2 ≤ k) (f1 f2 g : QueuedFrame)
    (rest : List QueuedFrame) (hlen : rest.length + 2 = k) :
    ((FrameQueue.run (FrameQueue.new k)
        ((f1 :: f2 :: rest).map FrameQueue.Op.push)).push g).2 = true
    ∧ ((FrameQueue.run (FrameQueue.new k)
        ((f1 :: f2 :: rest).map FrameQueue.Op.push)).push g).1.len = k
    ∧ ((FrameQueue.run (FrameQueue.new k)
        ((f1 :: f2 :: rest).map FrameQueue.Op.push)).push g).1.try_pop.2 = some f2 := by
  have hmax : k.max 2 = k := Nat.max_eq_left hk
  have hlistlen : (f1 :: f2 :: rest).length = k := by
    simp only [List.length_cons]
    omega
  have hrun := FrameQueue.run_pushes k (f1 :: f2 :: rest) (by rw [hmax, hlistlen])
  rw [hmax, hlistlen, Nat.sub_self, List.replicate_zero, List.append_nil] at hrun
  rw [hrun, FrameQueue.push]
  rw [if_neg (by simp), if_pos (by simp)]
  have hmod1 : 1 % k = 1 := Nat.mod_eq_of_lt (by omega)
  refine ⟨rfl, ?_, ?_⟩
  · simp [FrameQueue.len, FrameQueue.write_frame, FrameQueue.drop_oldest]
    omega
  · rw [FrameQueue.try_pop]
    rw [if_neg (by simp [FrameQueue.write_frame, FrameQueue.drop_oldest])]
    simp [FrameQueue.write_frame, FrameQueue.drop_oldest, Nat.mod_self, hmod1]

/-- Witness for C2 at capacity 2 with three concrete frames. -/
theorem frame_queue_drop_oldest_witness :
    ((FrameQueue.run (FrameQueue.new 2)
        ([sampleFrame 1, sampleFrame 2].map FrameQueue.Op.push)).push (sampleFrame 3)).1.try_pop.2
      = some (sampleFrame 2) :=
  (frame_queue_drop_oldest_claim 2 (by omega) (sampleFrame 1) (sampleFrame 2)
    (sampleFrame 3) [] (by simp)).2.2

/-- C8: after one push and one pop the queue is empty and caches the
popped frame; every subsequent `get_render_frame` call returns that same
frame content, with the reused counter growing by one per call; and
`get_render_frame` returns `none` only when no frame was ever pushed. -/
theorem frame_queue_reuse_claim (c : Nat) (f : QueuedFrame) (n : Nat)
    (ops : List FrameQueue.Op) :
    ((FrameQueue.new c).push f).1.try_pop.2 = some f
    ∧ (FrameQueue.run ((FrameQueue.new c).push f).1.try_pop.1
        (List.replicate n FrameQueue.Op.getRenderFrame)).get_render_frame.2 = some f
    ∧ (FrameQueue.run ((FrameQueue.new c).push f).1.try_pop.1
        (List.replicate n FrameQueue.Op.getRenderFrame)).stats_reused = n
    ∧ (FrameQueue.run ((FrameQueue.new c).push f).1.try_pop.1
        (List.replicate n FrameQueue.Op.getRenderFrame)).get_render_frame.1.stats_reused
        = n + 1
    ∧ ((FrameQueue.run (FrameQueue.new c) ops).get_render_frame.2 = none →
        (FrameQueue.run (FrameQueue.new c) ops).stats_pushed = 0) := by
  have hpp := FrameQueue.push_pop_state c f
  have h2 : ((FrameQueue.new c).push f).1.try_pop.1.count = 0 := by rw [hpp]
  have hreuse := FrameQueue.run_reuse ((FrameQueue.new c).push f).1.try_pop.1 h2 n
  have hlast : ((FrameQueue.new c).push f).1.try_pop.1.last_frame = some f := by rw [hpp]
  have hreused0 : ((FrameQueue.new c).push f).1.try_pop.1.stats_reused = 0 := by rw [hpp]
  have hqn_count : (FrameQueue.run ((FrameQueue.new c).push f).1.try_pop.1
      (List.replicate n FrameQueue.Op.getRenderFrame)).count = 0 := by
    rw [hreuse]
    exact h2
  have hgrf := FrameQueue.get_render_frame_empty _ hqn_count
  refine ⟨by rw [hpp], ?_, ?_, ?_, ?_⟩
  · rw [hgrf, hreuse]
    simpa using hlast
  · rw [hreuse]
    simp [hreused0]
  · rw [hgrf]
    simp [hreuse, hreused0]
  · intro hnone
    have hinv := FrameQueue.inv_run (FrameQueue.new c) ops (FrameQueue.inv_new c)
    by_cases h0 : (FrameQueue.run (FrameQueue.new c) ops).count = 0
    · have hpop : (FrameQueue.run (FrameQueue.new c) ops).try_pop
          = (FrameQueue.run (FrameQueue.new c) ops, none) := by
        rw [FrameQueue.try_pop, if_pos h0]
      rw [FrameQueue.get_render_frame, hpop] at hnone
      have hlastnone : (FrameQueue.run (FrameQueue.new c) ops).last_frame = none := hnone
      by_contra hps
      have hever := hinv.ever (Nat.pos_of_ne_zero hps)
      rcases hever with hcount | hsome
      · omega
      · rw [hlastnone] at hsome
        cases hsome
    · obtain ⟨f2, hf2, hpop⟩ := FrameQueue.try_pop_nonempty _ hinv (Nat.pos_of_ne_zero h0)
      rw [FrameQueue.get_render_frame, hpop] at hnone
      cases hnone

/-- On a non-webm, non-gif extension with no NVIDIA GPU and a
successful probe, `needs_conversion` reduces to the codec routing
chain. -/
theorem needs_conversion_probe (e codec : String) (env : ConvEnv)
    (hgif : lowerStr e ≠ "gif") (hwebm : lowerStr e ≠ "webm")
    (hnv : env.nvidia = false) (hp : env.probe = some codec) :
    needs_conversion (some e) env =
      (if UNIVERSAL_HW_CODECS.any (fun c => strContains codec c) then false
       else if CONVERTIBLE_CODECS.any (fun c => strContains codec c) then true
       else if PROBLEMATIC_CODECS.any (fun c => strContains codec c) then true
       else false) := by
  rw [needs_conversion]
  rw [if_neg (by simp [hgif]), if_neg (by simp [hwebm]), if_neg (by simp [hnv]), hp]

/-- C3: `needs_conversion` routing.  A `.webm` or `.gif` extension
(case-insensitively) never needs conversion, regardless of the probed
codec; otherwise, with no NVIDIA GPU and a probed codec:
a codec containing `vp9`/`vp8`/`av1` does not need conversion; failing
that, one containing `mpeg4`/`mpeg2video`/`mjpeg` does; failing the
whole reliably-convertible set, one containing `h264`/`hevc`/`h265`
does, with the GStreamer-decode routing flag also set; a codec matching
none of the three sets is played directly (false). -/
theorem needs_conversion_routing (e codec : String) (env : ConvEnv) :
    ((lowerStr e = "webm" ∨ lowerStr e = "gif") → needs_conversion (some e) env = false)
    ∧ (lowerStr e ≠ "webm" → lowerStr e ≠ "gif" → env.nvidia = false →
        env.probe = some codec →
        (((strContains codec "vp9" || strContains codec "vp8"
              || strContains codec "av1") = true →
            needs_conversion (some e) env = false)
         ∧ ((strContains codec "vp9" || strContains codec "vp8"
              || strContains codec "av1") = false →
            (strContains codec "mpeg4" || strContains codec "mpeg2video"
              || strContains codec "mjpeg") = true →
            needs_conversion (some e) env = true)
         ∧ ((strContains codec "vp9" || strContains codec "vp8"
              || strContains codec "av1") = false →
            CONVERTIBLE_CODECS.any (fun c => strContains codec c) = false →
            (strContains codec "h264" || strContains codec "hevc"
              || strContains codec "h265") = true →
            needs_conversion (some e) env = true ∧ is_problematic codec = true)
         ∧ ((strContains codec "vp9" || strContains codec "vp8"
              || strContains codec "av1") = false →
            CONVERTIBLE_CODECS.any (fun c => strContains codec c) = false →
            (strContains codec "h264" || strContains codec "hevc"
              || strContains codec "h265") = false →
            needs_conversion (some e) env = false))) := by
  have huniv : UNIVERSAL_HW_CODECS.any (fun c => strContains codec c)
      = (strContains codec "vp9" || strContains codec "vp8" || strContains codec "av1") := by
    simp [UNIVERSAL_HW_CODECS, Bool.or_assoc]
  have hprob : PROBLEMATIC_CODECS.any (fun c => strContains codec c)
      = (strContains codec "h264" || strContains codec "hevc"
          || strContains codec "h265") := by
    simp [PROBLEMATIC_CODECS, Bool.or_assoc]
  constructor
  · rintro (hw | hg)
    · rw [needs_conversion]
      rw [if_neg (by simp [hw]), if_pos (by simp [hw])]
    · rw [needs_conversion]
      rw [if_pos (by simp [hg])]
  · intro hwebm hgif hnv hp
    have hred := needs_conversion_probe e codec env hgif hwebm hnv hp
    refine ⟨?_, ?_, ?_, ?_⟩
    · intro hu
      rw [hred, if_pos (by rw [huniv, hu])]
    · intro hu hc
      have hcany : CONVERTIBLE_CODECS.any (fun c => strContains codec c) = true := by
        simp only [CONVERTIBLE_CODECS, List.any_cons, List.any_nil, Bool.or_false] at *
        rcases Bool.or_eq_true_iff.mp hc with h1 | h2
        · rcases Bool.or_eq_true_iff.mp h1 with ha | hb
          · rw [ha]; rfl
          · rw [hb]; simp
        · rw [h2]; simp
      rw [hred, if_neg (by rw [huniv, hu]; simp), if_pos hcany]
    · intro hu hc hh
      refine ⟨?_, ?_⟩
      · rw [hred, if_neg (by rw [huniv, hu]; simp), if_neg (by rw [hc]; simp),
          if_pos (by rw [hprob, hh])]
      · rw [is_problematic, hprob, hh]
    · intro hu hc hh
      rw [hred, if_neg (by rw [huniv, hu]; simp), if_neg (by rw [hc]; simp),
        if_neg (by rw [hprob, hh]; simp)]

/-- Witness for C3 at four concrete codecs and a `.webm` extension. -/
theorem needs_conversion_routing_witness :
    needs_conversion (some "WebM")
        { nvidia := false, probe := some "mpeg4", cachePathOk := true,
          cachedExists := false, cachedSize := 0, ffmpeg := true, mkdirOk := true,
          gst := true, gstConvertOk := true, vaapi := false, ffmpegRunOk := true,
          ffmpegFallbackOk := true, outSize := 5 } = false
    ∧ needs_conversion (some "mp4")
        { nvidia := false, probe := some "vp9", cachePathOk := true,
          cachedExists := false, cachedSize := 0, ffmpeg := true, mkdirOk := true,
          gst := true, gstConvertOk := true, vaapi := false, ffmpegRunOk := true,
          ffmpegFallbackOk := true, outSize := 5 } = false
    ∧ needs_conversion (some "mp4")
        { nvidia := false, probe := some "mpeg2video", cachePathOk := true,
          cachedExists := false, cachedSize := 0, ffmpeg := true, mkdirOk := true,
          gst := true, gstConvertOk := true, vaapi := false, ffmpegRunOk := true,
          ffmpegFallbackOk := true, outSize := 5 } = true
    ∧ (needs_conversion (some "mp4")
        { nvidia := false, probe := some "h264", cachePathOk := true,
          cachedExists := false, cachedSize := 0, ffmpeg := true, mkdirOk := true,
          gst := true, gstConvertOk := true, vaapi := false, ffmpegRunOk := true,
          ffmpegFallbackOk := true, outSize := 5 } = true ∧ is_problematic "h264" = true)
    ∧ needs_conversion (some "mp4")
        { nvidia := false, probe := some "theora", cachePathOk := true,
          cachedExists := false, cachedSize := 0, ffmpeg := true, mkdirOk := true,
          gst := true, gstConvertOk := true, vaapi := false, ffmpegRunOk := true,
          ffmpegFallbackOk := true, outSize := 5 } = false :=
  ⟨(needs_conversion_routing "WebM" "mpeg4" _).1 (Or.inl (by decide)),
   ((needs_conversion_routing "mp4" "vp9" _).2 (by decide) (by decide) rfl rfl).1
      (by decide),
   ((needs_conversion_routing "mp4" "mpeg2video" _).2 (by decide) (by decide) rfl rfl).2.1
      (by decide) (by decide),
   ((needs_conversion_routing "mp4" "h264" _).2 (by decide) (by decide) rfl rfl).2.2.1
      (by decide) (by decide) (by decide),
   ((needs_conversion_routing "mp4" "theora" _).2 (by decide) (by decide) rfl rfl).2.2.2
      (by decide) (by decide) (by decide)⟩

/-- C9: conversion failure handling in `get_optimal_video_path` and
`convert_to_vp9`: a failed conversion (any stage, including a zero-byte
or missing output) makes `get_optimal_video_path` return the original
source path; the cached artifact is returned without running any
converter exactly when it exists with non-zero size; and an existing
zero-byte cached artifact is deleted and treated as a cache miss (any
success afterwards comes from actually re-running a converter). -/
theorem conversion_failure_policy (ext : Option String) (env : ConvEnv) :
    ((convert_to_vp9 env).result = none → get_optimal_video_path ext env = VideoPath.original)
    ∧ (env.outSize = 0 →
        ¬(env.cachedExists = true ∧ 0 < env.cachedSize) →
        ¬(is_problematic (env.probe.getD "") = true ∧ env.gst = true
            ∧ env.gstConvertOk = true) →
        (convert_to_vp9 env).result = none)
    ∧ (((convert_to_vp9 env).result.isSome = true ∧ (convert_to_vp9 env).ranConverter = false)
        ↔ (env.cachePathOk = true ∧ env.cachedExists = true ∧ 0 < env.cachedSize))
    ∧ (env.cachePathOk = true → env.cachedExists = true → env.cachedSize = 0 →
        (convert_to_vp9 env).deletedStaleCache = true
        ∧ ((convert_to_vp9 env).result.isSome = true →
            (convert_to_vp9 env).ranConverter = true)) := by
  refine ⟨?_, ?_, ?_, ?_⟩
  · intro hfail
    rw [get_optimal_video_path]
    by_cases hneed : needs_conversion ext env = true
    · rw [hneed]
      simp only [Bool.not_true, Bool.false_eq_true, if_false]
      rw [hfail]
    · rw [Bool.not_eq_true] at hneed
      rw [hneed]
      simp
  · intro hzero hnohit hnogst
    rcases hcp : env.cachePathOk with _ | _
    · rw [convert_to_vp9, if_pos (by rw [hcp]; rfl)]
    · rw [convert_to_vp9, if_neg (by rw [hcp]; decide)]
      rw [if_neg (by
        intro hcon
        rcases Bool.and_eq_true_iff.mp hcon with ⟨h1, h2⟩
        exact hnohit ⟨h1, by simpa using h2⟩)]
      rcases hff : env.ffmpeg with _ | _
      · rw [if_pos (by simp [*])]
      · rw [if_neg (by simp [*])]
        rcases hmk : env.mkdirOk with _ | _
        · rw [if_pos (by simp [*])]
        · rw [if_neg (by simp [*])]
          rw [if_neg (by
            intro hcon
            rcases Bool.and_eq_true_iff.mp hcon with ⟨h12, h3⟩
            rcases Bool.and_eq_true_iff.mp h12 with ⟨h1, h2⟩
            exact hnogst ⟨h1, h2, h3⟩)]
          by_cases hs : (if env.vaapi && !env.nvidia && !is_problematic (env.probe.getD "")
              then env.ffmpegRunOk || env.ffmpegFallbackOk
              else env.ffmpegRunOk) = true
          · rw [if_neg (by rw [hs]; decide), if_pos hzero]
          · simp only [Bool.not_eq_true] at hs
            rw [if_pos (by rw [hs]; rfl)]
  · constructor
    · rintro ⟨hsome, hran⟩
      rcases hcp : env.cachePathOk with _ | _
      · rw [convert_to_vp9, if_pos (by rw [hcp]; rfl)] at hsome
        exact absurd hsome (by simp)
      · by_cases hhit : (env.cachedExists && decide (0 < env.cachedSize)) = true
        · rcases Bool.and_eq_true_iff.mp hhit with ⟨h1, h2⟩
          exact ⟨rfl, h1, by simpa using h2⟩
        · exfalso
          rw [convert_to_vp9, if_neg (by rw [hcp]; decide), if_neg hhit] at hsome hran
          rcases hff : env.ffmpeg with _ | _
          · rw [if_pos (by simp [*])] at hsome
            exact absurd hsome (by simp)
          · rw [if_neg (by simp [*])] at hsome hran
            rcases hmk : env.mkdirOk with _ | _
            · rw [if_pos (by simp [*])] at hsome
              exact absurd hsome (by simp)
            · rw [if_neg (by simp [*])] at hsome hran
              by_cases hgstp : (is_problematic (env.probe.getD "") && env.gst
                  && env.gstConvertOk) = true
              · rw [if_pos hgstp] at hran
                exact absurd hran (by simp)
              · rw [if_neg hgstp] at hsome hran
                by_cases hs : (if env.vaapi && !env.nvidia
                    && !is_problematic (env.probe.getD "")
                    then env.ffmpegRunOk || env.ffmpegFallbackOk
                    else env.ffmpegRunOk) = true
                · rw [if_neg (by rw [hs]; decide)] at hsome hran
                  by_cases hz : env.outSize = 0
                  · rw [if_pos hz] at hsome
                    exact absurd hsome (by simp)
                  · rw [if_neg hz] at hran
                    exact absurd hran (by simp)
                · simp only [Bool.not_eq_true] at hs
                  rw [if_pos (by rw [hs]; rfl)] at hsome
                  exact absurd hsome (by simp)
    · rintro ⟨hcp, hex, hpos⟩
      rw [convert_to_vp9, if_neg (by rw [hcp]; decide),
        if_pos (by rw [hex]; simpa using hpos)]
      exact ⟨rfl, rfl⟩
  · intro hcp hex hz
    have hnohit2 : (env.cachedExists && decide (0 < env.cachedSize)) = false := by
      rw [hz]
      simp
    rw [convert_to_vp9, if_neg (by rw [hcp]; decide), if_neg (by rw [hnohit2]; decide)]
    constructor
    · rcases hff : env.ffmpeg with _ | _
      · rw [if_pos (by simp [*])]
        exact hex
      · rw [if_neg (by simp [*])]
        rcases hmk : env.mkdirOk with _ | _
        · rw [if_pos (by simp [*])]
          exact hex
        · rw [if_neg (by simp [*])]
          by_cases hgstp : (is_problematic (env.probe.getD "") && env.gst
              && env.gstConvertOk) = true
          · rw [if_pos hgstp]
            exact hex
          · rw [if_neg hgstp]
            by_cases hs : (if env.vaapi && !env.nvidia
                && !is_problematic (env.probe.getD "")
                then env.ffmpegRunOk || env.ffmpegFallbackOk
                else env.ffmpegRunOk) = true
            · rw [if_neg (by rw [hs]; decide)]
              by_cases hz2 : env.outSize = 0
              · rw [if_pos hz2]
                exact hex
              · rw [if_neg hz2]
                exact hex
            · simp only [Bool.not_eq_true] at hs
              rw [if_pos (by rw [hs]; rfl)]
              exact hex
    · intro hsome
      rcases hff : env.ffmpeg with _ | _
      · rw [if_pos (by simp [*])] at hsome
        exact absurd hsome (by simp)
      · rw [if_neg (by simp [*])] at hsome ⊢
        rcases hmk : env.mkdirOk with _ | _
        · rw [if_pos (by simp [*])] at hsome
          exact absurd hsome (by simp)
        · rw [if_neg (by simp [*])] at hsome ⊢
          by_cases hgstp : (is_problematic (env.probe.getD "") && env.gst
              && env.gstConvertOk) = true
          · rw [if_pos hgstp]
          · rw [if_neg hgstp] at hsome ⊢
            by_cases hs : (if env.vaapi && !env.nvidia
                && !is_problematic (env.probe.getD "")
                then env.ffmpegRunOk || env.ffmpegFallbackOk
                else env.ffmpegRunOk) = true
            · rw [if_neg (by rw [hs]; decide)] at hsome ⊢
              by_cases hz2 : env.outSize = 0
              · rw [if_pos hz2] at hsome
                exact absurd hsome (by simp)
              · rw [if_neg hz2]
            · simp only [Bool.not_eq_true] at hs
              rw [if_pos (by rw [hs]; rfl)] at hsome
              exact absurd hsome (by simp)

/-- Witness for C9: a failing zero-byte conversion falls back to the
original path; a non-empty cached artifact short-circuits; a zero-byte
cached artifact is deleted. -/
theorem conversion_failure_policy_witness :
    get_optimal_video_path (some "mp4")
        { nvidia := false, probe := some "mpeg4", cachePathOk := true,
          cachedExists := false, cachedSize := 0, ffmpeg := true, mkdirOk := true,
          gst := false, gstConvertOk := false, vaapi := false, ffmpegRunOk := true,
          ffmpegFallbackOk := true, outSize := 0 } = VideoPath.original
    ∧ ((convert_to_vp9
        { nvidia := false, probe := some "mpeg4", cachePathOk := true,
          cachedExists := true, cachedSize := 9, ffmpeg := true, mkdirOk := true,
          gst := false, gstConvertOk := false, vaapi := false, ffmpegRunOk := true,
          ffmpegFallbackOk := true, outSize := 0 }).result.isSome = true
      ∧ (convert_to_vp9
        { nvidia := false, probe := some "mpeg4", cachePathOk := true,
          cachedExists := true, cachedSize := 9, ffmpeg := true, mkdirOk := true,
          gst := false, gstConvertOk := false, vaapi := false, ffmpegRunOk := true,
          ffmpegFallbackOk := true, outSize := 0 }).ranConverter = false)
    ∧ (convert_to_vp9
        { nvidia := false, probe := some "mpeg4", cachePathOk := true,
          cachedExists := true, cachedSize := 0, ffmpeg := true, mkdirOk := true,
          gst := false, gstConvertOk := false, vaapi := false, ffmpegRunOk := true,
          ffmpegFallbackOk := true, outSize := 7 }).deletedStaleCache = true :=
  ⟨(conversion_failure_policy (some "mp4") _).1
      ((conversion_failure_policy (some "mp4") _).2.1 rfl (by simp) (by decide)),
   (conversion_failure_policy (some "mp4") _).2.2.1.mpr ⟨rfl, rfl, by norm_num⟩,
   ((conversion_failure_policy (some "mp4") _).2.2.2 rfl rfl rfl).1⟩

/-- C5: a two-plane NV12 DMA-BUF frame built without explicit plane
metadata has plane-0 offset 0 and plane-1 offset `y_stride * height`,
both planes with stride `y_stride`; built with explicit metadata, the
planes carry exactly the explicit offsets and strides. -/
theorem nv12_plane_offsets (dup_fd fourcc modifier width height y_stride
    uv_stride y_offset uv_offset : Nat) (h : y_stride * height < U32) :
    (DmaBufFrameData.from_raw_fd_nv12 dup_fd fourcc modifier width height y_stride).planes
      = [{ fd := dup_fd, offset := 0, stride := y_stride },
         { fd := dup_fd, offset := y_stride * height, stride := y_stride }]
    ∧ (DmaBufFrameData.from_raw_fd_nv12_with_offsets dup_fd fourcc modifier width height
        y_stride uv_stride y_offset uv_offset).planes
      = [{ fd := dup_fd, offset := y_offset, stride := y_stride },
         { fd := dup_fd, offset := uv_offset, stride := uv_stride }] := by
  constructor
  · simp [DmaBufFrameData.from_raw_fd_nv12, Nat.mod_eq_of_lt h]
  · rfl

/-- Witness for C5 at the spec's example: `y_stride = 1920`,
`height = 1080`, plane-1 offset `2073600`. -/
theorem nv12_plane_offsets_witness :
    (DmaBufFrameData.from_raw_fd_nv12 7 842094158 0 1920 1080 1920).planes
      = [{ fd := 7, offset := 0, stride := 1920 },
         { fd := 7, offset := 2073600, stride := 1920 }] := by
  have h := (nv12_plane_offsets 7 842094158 0 1920 1080 1920 1920 0 2073600
    (by norm_num [U32])).1
  rw [h]

/-- C6 counterexample: when the probe cannot read a framerate the code
returns `DEFAULT_FRAME_DURATION = 16 ms`, which is not 1/60 of a
second, contradicting the claimed 60 fps (1/60 s) default. -/
theorem detect_framerate_default_not_one_sixtieth :
    detect_framerate FramerateProbe.pauseFail = 16 / 1000
    ∧ (16 / 1000 : ℚ) ≠ 1 / 60 := by
  refine ⟨rfl, by norm_num⟩

/-- C6 (amended): every probe outcome without a positive framerate
fraction yields the 16 ms default (approximately, but not exactly,
60 fps); a positive `n/d` framerate yields `d/n` seconds clamped from
below by the 16 ms minimum frame duration. -/
theorem detect_framerate_spec (p : FramerateProbe) (n d : Int) :
    ((∀ m e : Int, p ≠ FramerateProbe.framerate m e) →
        detect_framerate p = 16 / 1000)
    ∧ (¬(0 < n ∧ 0 < d) → detect_framerate (FramerateProbe.framerate n d) = 16 / 1000)
    ∧ (0 < n → 0 < d → detect_framerate (FramerateProbe.framerate n d)
        = max ((d : ℚ) / (n : ℚ)) MIN_FRAME_DURATION) := by
  refine ⟨?_, ?_, ?_⟩
  · intro hnf
    cases p with
    | framerate m e => exact absurd rfl (hnf m e)
    | _ => rfl
  · intro hneg
    rw [detect_framerate, if_neg hneg]
    rfl
  · intro hn hd
    rw [detect_framerate, if_pos ⟨hn, hd⟩]

/-- Witness for C6's amended theorem at three concrete probes. -/
theorem detect_framerate_spec_witness :
    detect_framerate FramerateProbe.noCaps = 16 / 1000
    ∧ detect_framerate (FramerateProbe.framerate (-5) 1) = 16 / 1000
    ∧ detect_framerate (FramerateProbe.framerate 30 1)
        = max ((1 : ℚ) / (30 : ℚ)) MIN_FRAME_DURATION :=
  ⟨(detect_framerate_spec FramerateProbe.noCaps 30 1).1
      (by intro m e h; cases h),
   (detect_framerate_spec FramerateProbe.noCaps (-5) 1).2.1 (by norm_num),
   (detect_framerate_spec FramerateProbe.noCaps 30 1).2.2 (by norm_num) (by norm_num)⟩

set_option maxRecDepth 10000 in
/-- C4 counterexample: a 260-byte file whose ftyp box declares size 260
(> 256), with major brand `avif` and `avis` among its compatible-brand
codes, is classified not-animated, although the box extends past the
first 12 bytes and `avis` is among the 4-byte compatible brands — the
code skips the scan whenever the declared box size exceeds 256. -/
theorem is_animated_avif_cex :
    is_animated_avif (some avifCexBytes) = false
    ∧ 12 ≤ avifCexBytes.length
    ∧ boxType avifCexBytes = ftypBytes
    ∧ majorBrand avifCexBytes = avifBytes
    ∧ 12 < boxSize avifCexBytes
    ∧ boxSize avifCexBytes ≤ avifCexBytes.length
    ∧ hasAvisChunk (compatibleBrands avifCexBytes) = true := by
  refine ⟨by decide, by decide, by decide, by decide, by decide, by decide, by decide⟩

/-- C4 (amended): `is_animated_avif` classifies an unopenable or short
or non-ftyp file as not-animated; an ftyp file with major brand `avis`
as animated; and an ftyp file with major brand `avif` as animated
exactly when the declared box size lies in `(12, 256]`, the whole box
is present in the file, the box has room for the minor version, and
`avis` occurs among the scanned 4-byte compatible-brand chunks. -/
theorem is_animated_avif_spec (b : List Nat) :
    is_animated_avif none = false
    ∧ (b.length < 12 → is_animated_avif (some b) = false)
    ∧ (12 ≤ b.length → boxType b ≠ ftypBytes → is_animated_avif (some b) = false)
    ∧ (12 ≤ b.length → boxType b = ftypBytes → majorBrand b = avisBytes →
        is_animated_avif (some b) = true)
    ∧ (12 ≤ b.length → boxType b = ftypBytes → majorBrand b = avifBytes →
        (is_animated_avif (some b) = true ↔
          12 < boxSize b ∧ boxSize b ≤ 256 ∧ boxSize b ≤ b.length ∧
            16 ≤ boxSize b ∧ hasAvisChunk (compatibleBrands b) = true)) := by
  refine ⟨rfl, ?_, ?_, ?_, ?_⟩
  · intro hshort
    rw [is_animated_avif, if_pos hshort]
  · intro hlen hne
    rw [is_animated_avif, if_neg (by omega), if_pos hne]
  · intro hlen hft hmaj
    rw [is_animated_avif, if_neg (by omega), if_neg (by simp [hft]), if_pos hmaj]
  · intro hlen hft hmaj
    have hnavis : majorBrand b ≠ avisBytes := by
      rw [hmaj]
      decide
    rw [is_animated_avif, if_neg (by omega), if_neg (by simp [hft]), if_neg hnavis]
    constructor
    · intro htrue
      by_cases h1 : 12 < boxSize b ∧ boxSize b ≤ 256
      · rw [if_pos h1] at htrue
        by_cases h2 : boxSize b ≤ b.length
        · rw [if_pos h2] at htrue
          by_cases h3 : 4 ≤ boxSize b - 12
          · rw [if_pos h3] at htrue
            exact ⟨h1.1, h1.2, h2, by omega, htrue⟩
          · rw [if_neg h3] at htrue
            cases htrue
        · rw [if_neg h2] at htrue
          cases htrue
      · rw [if_neg h1] at htrue
        cases htrue
    · rintro ⟨hgt, hle, hread, hminor, hscan⟩
      rw [if_pos ⟨hgt, hle⟩, if_pos hread, if_pos (by omega)]
      exact hscan

/-- Witness for C4's amended theorem on concrete 24-byte headers. -/
theorem is_animated_avif_spec_witness :
    is_animated_avif (some ([0, 0, 0, 16] ++ ftypBytes ++ avisBytes ++ [0, 0, 0, 0]))
      = true
    ∧ is_animated_avif (some ([0, 0, 0, 24] ++ ftypBytes ++ avifBytes ++ [0, 0, 0, 0]
        ++ avisBytes ++ [0, 0, 0, 0])) = true
    ∧ is_animated_avif (some [1, 2, 3]) = false :=
  ⟨(is_animated_avif_spec ([0, 0, 0, 16] ++ ftypBytes ++ avisBytes ++ [0, 0, 0, 0])).2.2.2.1
      (by decide) (by decide) (by decide),
   ((is_animated_avif_spec ([0, 0, 0, 24] ++ ftypBytes ++ avifBytes ++ [0, 0, 0, 0]
        ++ avisBytes ++ [0, 0, 0, 0])).2.2.2.2 (by decide) (by decide) (by decide)).mpr
      (by refine ⟨by decide, by decide, by decide, by decide, by decide⟩),
   (is_animated_avif_spec [1, 2, 3]).2.1 (by decide)⟩

/-- Witness for C8 at capacity 3, two reuse calls, and the empty run. -/
theorem frame_queue_reuse_witness :
    ((FrameQueue.new 3).push (sampleFrame 1)).1.try_pop.2 = some (sampleFrame 1)
    ∧ (FrameQueue.run ((FrameQueue.new 3).push (sampleFrame 1)).1.try_pop.1
        (List.replicate 2 FrameQueue.Op.getRenderFrame)).get_render_frame.2
        = some (sampleFrame 1)
    ∧ (FrameQueue.run ((FrameQueue.new 3).push (sampleFrame 1)).1.try_pop.1
        (List.replicate 2 FrameQueue.Op.getRenderFrame)).stats_reused = 2
    ∧ (FrameQueue.run (FrameQueue.new 3) []).stats_pushed = 0 := by
  have h := frame_queue_reuse_claim 3 (sampleFrame 1) 2 []
  exact ⟨h.1, h.2.1, h.2.2.1, h.2.2.2.2 (by decide)⟩

end CosmicBg
